import Mathlib

/-!
Verification of the GEOLIB polyline core (src/GEO/Polyline.h).

The repository file is an interface header: it declares the class
`Polyline`, its accessors and mutators, the static factories
`closePolyline` and `constructPolylineFromSegments`, the protected
helpers `getLocationOfPoint` and `pointsAreIdentical`, and the free
predicate `containsEdge`.  The member bodies are not part of the
sources, so every behavioural definition below is modelled from the
specification's description of these operations; the declarations,
signatures and defaults (for instance the `prox = 0.0` default of
`constructPolylineFromSegments`) come from the header itself.

Exact rational arithmetic stands in for the `double` coordinates of the
source, and real numbers carry the (irrational) Euclidean lengths.
-/

set_option autoImplicit false

namespace GEOLIB

/-- A geometric point with three coordinates, modelling `GEOLIB::Point`
(a triple of doubles); rational coordinates stand in for the doubles. -/
structure Point where
  x : ℚ
  y : ℚ
  z : ℚ
deriving DecidableEq

instance : Inhabited Point := ⟨⟨0, 0, 0⟩⟩

/-- Squared Euclidean distance between two points. -/
def sqrDist (p q : Point) : ℚ :=
  (p.x - q.x) ^ 2 + (p.y - q.y) ^ 2 + (p.z - q.z) ^ 2

/-- Euclidean distance between two points. -/
noncomputable def pointDist (p q : Point) : ℝ :=
  Real.sqrt ((sqrDist p q : ℚ) : ℝ)

/-- Modelled from the spec: the error taxonomy of spec section 7; the
header declares the operations but their failing bodies are not in the
sources, so failures are surfaced through this explicit sum. -/
inductive GeoError where
  | InvalidIndex : GeoError
  | OutOfRange : GeoError
  | DegenerateInput : GeoError
  | DisconnectedFragments : List ℕ → GeoError
  | EmptyInput : GeoError
deriving DecidableEq

/-- The location classification relative to a directed segment
(src/GEO/Polyline.h, class `Location`, lines 28-41). -/
inductive Location where
  | LEFT : Location
  | RIGHT : Location
  | BEYOND : Location
  | BEHIND : Location
  | BETWEEN : Location
  | SOURCE : Location
  | DESTINATION : Location
deriving DecidableEq

/-- Class `Polyline`: a reference to a vector of points `_ply_pnts` and
the vector `_ply_pnt_ids` of indices into it (src/GEO/Polyline.h lines
52-173).  The borrowed point vector is held by value here. -/
structure Polyline where
  _ply_pnts : List Point
  _ply_pnt_ids : List ℕ
deriving DecidableEq

namespace Polyline

/-- Number of points of the polyline (src/GEO/Polyline.h line 99). -/
def getNumberOfPoints (pl : Polyline) : ℕ :=
  pl._ply_pnt_ids.length

/-- Modelled from the spec: `isClosed` is true iff the polyline has more
than one point and its first index equals its last index (spec section
4.1; only the declaration, src/GEO/Polyline.h line 102, is in the
sources). -/
def isClosed (pl : Polyline) : Bool :=
  decide (1 < pl._ply_pnt_ids.length) &&
    (pl._ply_pnt_ids.head? == pl._ply_pnt_ids.getLast?)

/-- Modelled from the spec: read accessor for the i-th point id, failing
with `OutOfRange` for `i ≥ size` (spec section 4.1; only the
declaration, src/GEO/Polyline.h line 116, is in the sources). -/
def getPointID (pl : Polyline) (i : ℕ) : Except GeoError ℕ :=
  match pl._ply_pnt_ids[i]? with
  | some id => .ok id
  | none => .error .OutOfRange

/-- Modelled from the spec: read accessor for the i-th point, failing
with `OutOfRange` for `i ≥ size` (spec section 4.1; only the
declaration, src/GEO/Polyline.h line 132, is in the sources). -/
def getPoint (pl : Polyline) (i : ℕ) : Except GeoError Point :=
  match pl.getPointID i with
  | .ok id => .ok (pl._ply_pnts.getD id default)
  | .error e => .error e

/-- Modelled from the spec: the const access operator `operator[]`, the
same read access to the i-th point as `getPoint` (spec section 4.1;
only the declaration, src/GEO/Polyline.h line 127, is in the
sources). -/
def opIndex (pl : Polyline) (i : ℕ) : Except GeoError Point :=
  pl.getPoint i

/-- The sequence of points the polyline traverses, read through its
index vector. -/
def pointSeq (pl : Polyline) : List Point :=
  pl._ply_pnt_ids.map (fun id => pl._ply_pnts.getD id default)

end Polyline

/-- Total Euclidean path length from `prev` through the points of
`ps`. -/
noncomputable def pathLen : Point → List Point → ℝ
  | _, [] => 0
  | prev, q :: qs => pointDist prev q + pathLen q qs

/-- Cumulative length entries of the path that continues from the point
`prev` with the length `acc` already accumulated. -/
noncomputable def cumLengthsFrom : Point → ℝ → List Point → List ℝ
  | _, _, [] => []
  | prev, acc, q :: qs =>
    (acc + pointDist prev q) :: cumLengthsFrom q (acc + pointDist prev q) qs

/-- Cumulative length sequence of a point path: entry k is the Euclidean
path length from point 0 through point k, and entry 0 is 0. -/
noncomputable def cumLengths : List Point → List ℝ
  | [] => []
  | p :: ps => 0 :: cumLengthsFrom p 0 ps

namespace Polyline

/-- Modelled from the spec: the cached `_length` vector of the header
(src/GEO/Polyline.h line 172), represented by its defining
recomputation: entry k is the Euclidean path length from point 0
through point k (spec section 3, `lengths`, recomputed whenever the
indices change; the maintenance code is not in the sources). -/
noncomputable def getLengthVec (pl : Polyline) : List ℝ :=
  cumLengths pl.pointSeq

/-- Modelled from the spec: the cumulative length up to the k-th
segment, failing with `OutOfRange` when k exceeds the size of the
cached length sequence (spec section 4.1; only the declaration,
src/GEO/Polyline.h line 141, is in the sources). -/
noncomputable def getLength (pl : Polyline) (k : ℕ) : Except GeoError ℝ :=
  match pl.getLengthVec[k]? with
  | some l => .ok l
  | none => .error .OutOfRange

/-- Modelled from the spec: appends a point id to the index sequence;
the id has to be inside the bound point vector, otherwise the call
fails with `InvalidIndex` (spec section 4.1; only the declaration,
src/GEO/Polyline.h line 74, is in the sources). -/
def addPoint (pl : Polyline) (pnt_id : ℕ) : Except GeoError Polyline :=
  if pnt_id < pl._ply_pnts.length then
    .ok { pl with _ply_pnt_ids := pl._ply_pnt_ids ++ [pnt_id] }
  else .error .InvalidIndex

/-- Modelled from the spec: inserts a point id at a position of the
interval [0, size); fails with `InvalidIndex` on a bad id and with
`OutOfRange` on a bad position (spec section 4.1; only the declaration,
src/GEO/Polyline.h line 82, is in the sources). -/
def insertPoint (pl : Polyline) (pos : ℕ) (pnt_id : ℕ) : Except GeoError Polyline :=
  if pnt_id < pl._ply_pnts.length then
    if pos < pl._ply_pnt_ids.length then
      .ok { pl with _ply_pnt_ids :=
        pl._ply_pnt_ids.take pos ++ pnt_id :: pl._ply_pnt_ids.drop pos }
    else .error .OutOfRange
  else .error .InvalidIndex

/-- Modelled from the spec: replaces the index stored at a position of
the line; fails with `InvalidIndex` on a bad id and with `OutOfRange`
on a bad position (spec section 4.1; only the declaration,
src/GEO/Polyline.h line 123, is in the sources). -/
def setPointID (pl : Polyline) (idx : ℕ) (id : ℕ) : Except GeoError Polyline :=
  if id < pl._ply_pnts.length then
    if idx < pl._ply_pnt_ids.length then
      .ok { pl with _ply_pnt_ids := pl._ply_pnt_ids.set idx id }
    else .error .OutOfRange
  else .error .InvalidIndex

/-- Modelled from the spec: closing a polyline produces a new polyline
with the first index appended at the end; it fails with
`DegenerateInput` when the input has fewer than three points (spec
section 4.3; only the declaration, src/GEO/Polyline.h lines 84-89, is
in the sources).  The input polyline itself is left untouched: the
operation is a pure function of its argument. -/
def closePolyline (ply : Polyline) : Except GeoError Polyline :=
  match ply._ply_pnt_ids with
  | i0 :: _ :: _ :: _ =>
    .ok { ply with _ply_pnt_ids := ply._ply_pnt_ids ++ [i0] }
  | _ => .error .DegenerateInput

end Polyline

/-- Modelled from the spec: two point indices of the vector `pnt_vec`
are identical either when the indices are equal or when the Euclidean
distance between their points is at most `prox` (spec section 4.4; only
the declaration, src/GEO/Polyline.h line 163, is in the sources).  The
comparison `dist ≤ prox` is encoded on squares, `sqrDist ≤ prox * prox`,
to stay inside rational arithmetic; the two forms agree for `0 ≤ prox`
(lemma `pointsAreIdentical_iff_dist`). -/
def pointsAreIdentical (pnt_vec : List Point) (i j : ℕ) (prox : ℚ) : Bool :=
  i == j ||
    decide (sqrDist (pnt_vec.getD i default) (pnt_vec.getD j default) ≤ prox * prox)

/-- Modelled from the spec: tries to attach a fragment to a chain whose
last index is `tailId`: when the fragment's first endpoint matches the
tail it yields the rest of the fragment to append, when its last
endpoint matches it yields the reversed rest (spec section 4.4 step
2). -/
def attachAtTail (pnt_vec : List Point) (prox : ℚ) (tailId : ℕ)
    (frag : List ℕ) : Option (List ℕ) :=
  match frag.head?, frag.getLast? with
  | some h, some l =>
    if pointsAreIdentical pnt_vec tailId h prox then some frag.tail
    else if pointsAreIdentical pnt_vec tailId l prox then some frag.reverse.tail
    else none
  | _, _ => none

/-- Modelled from the spec: tries to attach a fragment in front of a
chain whose first index is `headId`: when the fragment's last endpoint
matches the head it yields the front of the fragment to prepend, when
its first endpoint matches it yields the reversed front.  Spec section 2
asks the merger for one maximal ordered chain and spec section 4.4 step
4 only allows failure when the input is not a single connected chain, so
a fragment reaching the chain only at the chain's first endpoint is
attached there. -/
def attachAtHead (pnt_vec : List Point) (prox : ℚ) (headId : ℕ)
    (frag : List ℕ) : Option (List ℕ) :=
  match frag.head?, frag.getLast? with
  | some h, some l =>
    if pointsAreIdentical pnt_vec headId l prox then some frag.dropLast
    else if pointsAreIdentical pnt_vec headId h prox then some frag.reverse.dropLast
    else none
  | _, _ => none

/-- Modelled from the spec: scans the unconsumed fragments, tagged with
their original collection positions and kept in that order, for the
first one that attaches to the chain's last index; yields the indices to
append and the fragments that remain (spec section 4.4 step 2, with the
section 9 tie-break: prefer the lowest original collection position). -/
def findAttachAtTail (pnt_vec : List Point) (prox : ℚ) (tailId : ℕ) :
    List (ℕ × List ℕ) → Option (List ℕ × List (ℕ × List ℕ))
  | [] => none
  | (pos, frag) :: rest =>
    match attachAtTail pnt_vec prox tailId frag with
    | some app => some (app, rest)
    | none =>
      match findAttachAtTail pnt_vec prox tailId rest with
      | some (app, rest') => some (app, (pos, frag) :: rest')
      | none => none

/-- Modelled from the spec: scans the unconsumed fragments for the first
one that attaches in front of the chain's first index; yields the
indices to prepend and the fragments that remain (spec sections 2 and
4.4, tie-break as in `findAttachAtTail`). -/
def findAttachAtHead (pnt_vec : List Point) (prox : ℚ) (headId : ℕ) :
    List (ℕ × List ℕ) → Option (List ℕ × List (ℕ × List ℕ))
  | [] => none
  | (pos, frag) :: rest =>
    match attachAtHead pnt_vec prox headId frag with
    | some pre => some (pre, rest)
    | none =>
      match findAttachAtHead pnt_vec prox headId rest with
      | some (pre, rest') => some (pre, (pos, frag) :: rest')
      | none => none

/-- Modelled from the spec: the chain has closed into a loop: it has
more than one index and its first endpoint matches its last endpoint
(spec section 4.4 step 3). -/
def chainClosed (pnt_vec : List Point) (prox : ℚ) (chain : List ℕ) : Bool :=
  match chain with
  | h :: _ :: _ => pointsAreIdentical pnt_vec h (chain.getLastD h) prox
  | _ => false

/-- Modelled from the spec: the stitching loop of spec section 4.4 steps
2-3: while the chain has not closed into a loop, search the remaining
fragments for one that attaches at the chain's tail (or, failing that,
at its head) and splice it in.  The fuel bounds the iterations by the
number of fragments; every successful attach consumes one fragment. -/
def stitchAux (pnt_vec : List Point) (prox : ℚ) :
    ℕ → List ℕ → List (ℕ × List ℕ) → List ℕ × List (ℕ × List ℕ)
  | 0, chain, rem => (chain, rem)
  | fuel + 1, chain, rem =>
    if chainClosed pnt_vec prox chain then (chain, rem)
    else
      match chain.getLast? with
      | none => (chain, rem)
      | some tailId =>
        match findAttachAtTail pnt_vec prox tailId rem with
        | some (app, rem') => stitchAux pnt_vec prox fuel (chain ++ app) rem'
        | none =>
          match chain.head? with
          | none => (chain, rem)
          | some headId =>
            match findAttachAtHead pnt_vec prox headId rem with
            | some (pre, rem') => stitchAux pnt_vec prox fuel (pre ++ chain) rem'
            | none => (chain, rem)

/-- Modelled from the spec: constructs one polyline from a vector of
connected polyline fragments, all referencing the same point vector
(here the fragments are carried by their index sequences): the first
fragment starts the chain and the remaining ones are spliced in by the
stitching loop.  Fails with `EmptyInput` on zero fragments and with
`DisconnectedFragments`, reporting the original collection positions of
the fragments left over, when some fragment could not be attached (spec
section 4.4; only the declaration, src/GEO/Polyline.h lines 91-93, is
in the sources). -/
def constructPolylineFromSegments (pnt_vec : List Point)
    (ply_vec : List (List ℕ)) (prox : ℚ) : Except GeoError Polyline :=
  match ply_vec with
  | [] => .error .EmptyInput
  | f0 :: rest =>
    match stitchAux pnt_vec prox rest.length f0 (rest.enumFrom 1) with
    | (chain, []) => .ok ⟨pnt_vec, chain⟩
    | (_, rem) => .error (.DisconnectedFragments (rem.map Prod.fst))

/-- The declaration of `constructPolylineFromSegments` in the header
defaults the proximity tolerance to 0.0 (src/GEO/Polyline.h line 93):
a call that passes no tolerance is a call with tolerance 0. -/
def constructPolylineFromSegmentsDefault (pnt_vec : List Point)
    (ply_vec : List (List ℕ)) : Except GeoError Polyline :=
  constructPolylineFromSegments pnt_vec ply_vec 0

/-- Modelled from the spec: the 2D classification kernel of
`getLocationOfPoint` on explicit source and destination points (the z
coordinate is ignored): the sign of the signed area decides LEFT and
RIGHT, and in the collinear case dot products against the segment's two
endpoints decide BEHIND, SOURCE, DESTINATION, BEYOND and BETWEEN (spec
section 4.2).  Exact rational comparisons stand in for the epsilon
comparisons of the source. -/
def locate (source dest pnt : Point) : Location :=
  if 0 < (dest.x - source.x) * (pnt.y - source.y) -
      (dest.y - source.y) * (pnt.x - source.x) then .LEFT
  else if (dest.x - source.x) * (pnt.y - source.y) -
      (dest.y - source.y) * (pnt.x - source.x) < 0 then .RIGHT
  else if (dest.x - source.x) * (pnt.x - source.x) +
      (dest.y - source.y) * (pnt.y - source.y) < 0 then .BEHIND
  else if pnt.x = source.x ∧ pnt.y = source.y then .SOURCE
  else if pnt.x = dest.x ∧ pnt.y = dest.y then .DESTINATION
  else if (dest.x - source.x) * (dest.x - source.x) +
      (dest.y - source.y) * (dest.y - source.y) <
      (pnt.x - source.x) * (pnt.x - source.x) +
      (pnt.y - source.y) * (pnt.y - source.y) then .BEYOND
  else .BETWEEN

namespace Polyline

/-- Modelled from the spec: the location of a point relative to the
directed k-th line segment of the polyline, a 2D method that ignores
the z coordinate (spec section 4.2; only the declaration,
src/GEO/Polyline.h lines 152-161, is in the sources).  Yields none when
segment k does not exist. -/
def getLocationOfPoint (pl : Polyline) (k : ℕ) (pnt : Point) : Option Location :=
  match pl.pointSeq[k]?, pl.pointSeq[k + 1]? with
  | some source, some dest => some (locate source dest pnt)
  | _, _ => none

end Polyline

/-- Modelled from the spec: scans consecutive index pairs of a list for
the unordered edge (id0, id1) (spec section 4.5). -/
def containsEdgeAux (id0 id1 : ℕ) : List ℕ → Bool
  | a :: b :: rest =>
    (a == id0 && b == id1) || (a == id1 && b == id0) ||
      containsEdgeAux id0 id1 (b :: rest)
  | _ => false

/-- Modelled from the spec: true iff the ids occur as consecutive
elements of the polyline's index sequence, in either order (spec
section 4.5; only the declaration, src/GEO/Polyline.h line 178, is in
the sources). -/
def containsEdge (ply : Polyline) (id0 id1 : ℕ) : Bool :=
  containsEdgeAux id0 id1 ply._ply_pnt_ids

/-- Modelled from the spec: the polylines reachable from a freshly
constructed polyline over a fixed point vector through the mutation
operations of spec section 3 (lifecycle: append, insert and
point-id-replace). -/
inductive Reachable (pnt_vec : List Point) : Polyline → Prop where
  | base : Reachable pnt_vec ⟨pnt_vec, []⟩
  | addPoint {pl pl' : Polyline} {id : ℕ} :
      Reachable pnt_vec pl → pl.addPoint id = .ok pl' → Reachable pnt_vec pl'
  | insertPoint {pl pl' : Polyline} {pos id : ℕ} :
      Reachable pnt_vec pl → pl.insertPoint pos id = .ok pl' → Reachable pnt_vec pl'
  | setPointID {pl pl' : Polyline} {idx id : ℕ} :
      Reachable pnt_vec pl → pl.setPointID idx id = .ok pl' → Reachable pnt_vec pl'

/-- Concrete points used by the witness instances: six pairwise distinct
points, the first three collinear on the x-axis. -/
def egPnts : List Point :=
  [⟨0, 0, 0⟩, ⟨1, 0, 0⟩, ⟨2, 0, 0⟩, ⟨3, 1, 0⟩, ⟨5, 5, 0⟩, ⟨6, 7, 0⟩]

/-- The source endpoint of the witness segment for the classifier. -/
def egSource : Point := ⟨0, 0, 0⟩

/-- The destination endpoint of the witness segment for the classifier. -/
def egDest : Point := ⟨2, 0, 0⟩

/-- The query point of the classifier witness, off the segment line. -/
def egQuery : Point := ⟨1, 1, 0⟩

/-!
Supporting lemmas: distances, the point-identity rule, and the
cumulative length sequence.
-/

theorem sqrDist_nonneg (p q : Point) : 0 ≤ sqrDist p q := by
  unfold sqrDist
  positivity

theorem pointDist_nonneg (p q : Point) : 0 ≤ pointDist p q :=
  Real.sqrt_nonneg _

theorem pointDist_le_iff {p q : Point} {prox : ℚ} (hprox : 0 ≤ prox) :
    pointDist p q ≤ (prox : ℝ) ↔ sqrDist p q ≤ prox * prox := by
  have h1 : ((prox : ℝ)) ^ 2 = ((prox * prox : ℚ) : ℝ) := by
    push_cast
    ring
  rw [pointDist, Real.sqrt_le_left (by exact_mod_cast hprox), h1]
  exact Rat.cast_le

theorem pointDist_eq_zero_iff {p q : Point} :
    pointDist p q = 0 ↔ sqrDist p q = 0 := by
  rw [pointDist, Real.sqrt_eq_zero (by exact_mod_cast sqrDist_nonneg p q)]
  exact Rat.cast_eq_zero

/-- The identity rule of the merger, written with the Euclidean distance
of the spec: for a non-negative tolerance, two indices are identical
exactly when they are equal or their points lie within the tolerance. -/
theorem pointsAreIdentical_iff_dist (pnt_vec : List Point) (i j : ℕ) {prox : ℚ}
    (hprox : 0 ≤ prox) :
    pointsAreIdentical pnt_vec i j prox = true ↔
      i = j ∨
        pointDist (pnt_vec.getD i default) (pnt_vec.getD j default) ≤ (prox : ℝ) := by
  unfold pointsAreIdentical
  rw [Bool.or_eq_true, beq_iff_eq, decide_eq_true_eq, pointDist_le_iff hprox]

theorem cumLengthsFrom_length (prev : Point) (acc : ℝ) (ps : List Point) :
    (cumLengthsFrom prev acc ps).length = ps.length := by
  induction ps generalizing prev acc with
  | nil => rfl
  | cons q qs ih => simp [cumLengthsFrom, ih]

theorem cumLengths_length (ps : List Point) :
    (cumLengths ps).length = ps.length := by
  cases ps with
  | nil => rfl
  | cons p ps => simp [cumLengths, cumLengthsFrom_length]

theorem pathLen_nonneg (prev : Point) (ps : List Point) : 0 ≤ pathLen prev ps := by
  induction ps generalizing prev with
  | nil => exact le_of_eq rfl
  | cons q qs ih =>
    rw [pathLen]
    exact add_nonneg (pointDist_nonneg _ _) (ih q)

theorem cumLengthsFrom_chain (prev : Point) (acc : ℝ) (ps : List Point) :
    List.Chain' (· ≤ ·) (acc :: cumLengthsFrom prev acc ps) := by
  induction ps generalizing prev acc with
  | nil => simp [cumLengthsFrom]
  | cons q qs ih =>
    rw [cumLengthsFrom, List.chain'_cons]
    exact ⟨le_add_of_nonneg_right (pointDist_nonneg prev q), ih q _⟩

theorem cumLengths_chain (ps : List Point) :
    List.Chain' (· ≤ ·) (cumLengths ps) := by
  cases ps with
  | nil => simp [cumLengths]
  | cons p ps =>
    rw [cumLengths]
    exact cumLengthsFrom_chain p 0 ps

theorem cumLengthsFrom_append (prev : Point) (acc : ℝ) (ps : List Point) (q : Point) :
    cumLengthsFrom prev acc (ps ++ [q]) =
      cumLengthsFrom prev acc ps ++
        [acc + pathLen prev ps + pointDist (ps.getLastD prev) q] := by
  induction ps generalizing prev acc with
  | nil => simp [cumLengthsFrom, pathLen]
  | cons p ps ih =>
    have hlast : (p :: ps).getLastD prev = ps.getLastD p := by
      rw [List.getLastD_cons]
    have hplen : pathLen prev (p :: ps) = pointDist prev p + pathLen p ps := rfl
    rw [List.cons_append, cumLengthsFrom, cumLengthsFrom, ih, hlast, hplen,
      List.cons_append]
    simp only [add_assoc]

theorem cumLengthsFrom_getLastD (prev : Point) (acc : ℝ) (ps : List Point) :
    (cumLengthsFrom prev acc ps).getLastD acc = acc + pathLen prev ps := by
  induction ps generalizing prev acc with
  | nil => simp [cumLengthsFrom, pathLen]
  | cons q qs ih =>
    rw [cumLengthsFrom, List.getLastD_cons, ih, pathLen]
    ring

theorem getLengthVec_length (pl : Polyline) :
    pl.getLengthVec.length = pl.getNumberOfPoints := by
  rw [Polyline.getLengthVec, cumLengths_length, Polyline.pointSeq, List.length_map,
    Polyline.getNumberOfPoints]

theorem getLengthVec_entry_zero (pl : Polyline) (h : 0 < pl.getNumberOfPoints) :
    pl.getLengthVec[0]? = some 0 := by
  have hne : pl.pointSeq ≠ [] := by
    rw [← List.length_pos_iff_ne_nil, Polyline.pointSeq, List.length_map]
    exact h
  cases hps : pl.pointSeq with
  | nil => exact absurd hps hne
  | cons p ps =>
    rw [Polyline.getLengthVec, hps, cumLengths]
    simp

theorem containsEdgeAux_iff (id0 id1 : ℕ) (l : List ℕ) :
    containsEdgeAux id0 id1 l = true ↔
      ∃ k, (l[k]? = some id0 ∧ l[k + 1]? = some id1) ∨
        (l[k]? = some id1 ∧ l[k + 1]? = some id0) := by
  induction l with
  | nil => simp [containsEdgeAux]
  | cons a l ih =>
    cases l with
    | nil => simp [containsEdgeAux]
    | cons b rest =>
      rw [containsEdgeAux, Bool.or_eq_true, Bool.or_eq_true, Bool.and_eq_true,
        Bool.and_eq_true, beq_iff_eq, beq_iff_eq, beq_iff_eq, beq_iff_eq, ih]
      constructor
      · rintro ((⟨h1, h2⟩ | ⟨h1, h2⟩) | ⟨k, hk⟩)
        · exact ⟨0, Or.inl ⟨by simp [h1], by simp [h2]⟩⟩
        · exact ⟨0, Or.inr ⟨by simp [h1], by simp [h2]⟩⟩
        · exact ⟨k + 1, by simpa using hk⟩
      · rintro ⟨k, hk⟩
        cases k with
        | zero =>
          left
          simpa [eq_comm] using hk
        | succ k =>
          right
          exact ⟨k, by simpa using hk⟩

/-!
The claim theorems.
-/

/-- C3: for every polyline reachable through construction and the
mutation operations addPoint, insertPoint and setPointID, the length
sequence returned by getLengthVec is non-decreasing, has the same size
as getNumberOfPoints, and its entry 0 equals 0. -/
theorem getLengthVec_invariant (pnt_vec : List Point) (pl : Polyline)
    (_hreach : Reachable pnt_vec pl) :
    List.Chain' (· ≤ ·) pl.getLengthVec ∧
      pl.getLengthVec.length = pl.getNumberOfPoints ∧
      (0 < pl.getNumberOfPoints → pl.getLengthVec[0]? = some 0) :=
  ⟨cumLengths_chain _, getLengthVec_length pl, getLengthVec_entry_zero pl⟩

/-- Witness for C3: a polyline reached through addPoint, insertPoint and
setPointID satisfies the length-cache invariant. -/
theorem getLengthVec_invariant_witness :
    List.Chain' (· ≤ ·) (Polyline.getLengthVec ⟨egPnts, [0, 1, 3]⟩) ∧
      (Polyline.getLengthVec ⟨egPnts, [0, 1, 3]⟩).length =
        Polyline.getNumberOfPoints ⟨egPnts, [0, 1, 3]⟩ ∧
      (0 < Polyline.getNumberOfPoints ⟨egPnts, [0, 1, 3]⟩ →
        (Polyline.getLengthVec ⟨egPnts, [0, 1, 3]⟩)[0]? = some 0) := by
  have h1 := @Reachable.addPoint egPnts ⟨egPnts, []⟩ ⟨egPnts, [0]⟩ 0
    Reachable.base rfl
  have h2 := @Reachable.addPoint egPnts ⟨egPnts, [0]⟩ ⟨egPnts, [0, 2]⟩ 2 h1 rfl
  have h3 := @Reachable.insertPoint egPnts ⟨egPnts, [0, 2]⟩ ⟨egPnts, [0, 1, 2]⟩
    1 1 h2 rfl
  have h4 := @Reachable.setPointID egPnts ⟨egPnts, [0, 1, 2]⟩ ⟨egPnts, [0, 1, 3]⟩
    2 3 h3 rfl
  exact getLengthVec_invariant egPnts ⟨egPnts, [0, 1, 3]⟩ h4

/-- C4: closing a polyline with at least 3 points yields a new polyline
with one more point, whose last point id equals the first and which is
closed, the input polyline staying untouched; closing a polyline with
fewer than 3 points fails with DegenerateInput. -/
theorem closePolyline_spec (pl : Polyline) :
    (3 ≤ pl.getNumberOfPoints →
      ∃ pl', pl.closePolyline = .ok pl' ∧
        pl'._ply_pnts = pl._ply_pnts ∧
        pl'.getNumberOfPoints = pl.getNumberOfPoints + 1 ∧
        pl'._ply_pnt_ids.getLast? = pl._ply_pnt_ids.head? ∧
        pl'.isClosed = true) ∧
    (pl.getNumberOfPoints < 3 → pl.closePolyline = .error .DegenerateInput) := by
  obtain ⟨pnts, ids⟩ := pl
  constructor
  · intro h3
    have hlen : 3 ≤ ids.length := h3
    rcases ids with _ | ⟨i0, _ | ⟨i1, _ | ⟨i2, rest⟩⟩⟩
    · exact absurd hlen (by decide)
    · exact absurd hlen (by simp)
    · exact absurd hlen (by simp)
    · have hg : ((i0 :: i1 :: i2 :: rest) ++ [i0]).getLast? = some i0 :=
        List.getLast?_concat _
      refine ⟨⟨pnts, (i0 :: i1 :: i2 :: rest) ++ [i0]⟩, rfl, rfl, ?_, ?_, ?_⟩
      · simp [Polyline.getNumberOfPoints]
      · rw [hg]
        rfl
      · rw [Polyline.isClosed, hg]
        simp
  · intro h3
    rcases ids with _ | ⟨i0, _ | ⟨i1, _ | ⟨i2, rest⟩⟩⟩
    · rfl
    · rfl
    · rfl
    · exfalso
      have hn : (Polyline.getNumberOfPoints ⟨pnts, i0 :: i1 :: i2 :: rest⟩) =
          rest.length + 3 := by
        simp [Polyline.getNumberOfPoints]
      omega

/-- Witness for C4: closing the 4-point polyline [0, 1, 2, 3] over the
example points succeeds and closing the 2-point polyline [0, 1] fails. -/
theorem closePolyline_spec_witness :
    ((3 ≤ Polyline.getNumberOfPoints ⟨egPnts, [0, 1, 2, 3]⟩ →
      ∃ pl', Polyline.closePolyline ⟨egPnts, [0, 1, 2, 3]⟩ = .ok pl' ∧
        pl'._ply_pnts = egPnts ∧
        pl'.getNumberOfPoints =
          Polyline.getNumberOfPoints ⟨egPnts, [0, 1, 2, 3]⟩ + 1 ∧
        pl'._ply_pnt_ids.getLast? = ([0, 1, 2, 3] : List ℕ).head? ∧
        pl'.isClosed = true)) ∧
    (Polyline.getNumberOfPoints ⟨egPnts, [0, 1]⟩ < 3 →
      Polyline.closePolyline ⟨egPnts, [0, 1]⟩ = .error .DegenerateInput) :=
  ⟨(closePolyline_spec ⟨egPnts, [0, 1, 2, 3]⟩).1,
    (closePolyline_spec ⟨egPnts, [0, 1]⟩).2⟩

/-- C6: containsEdge is true iff the two ids occur as consecutive
elements of the polyline's index sequence, in either order; it is false
for every non-adjacent pair. -/
theorem containsEdge_iff_adjacent (ply : Polyline) (id0 id1 : ℕ) :
    containsEdge ply id0 id1 = true ↔
      ∃ k, (ply._ply_pnt_ids[k]? = some id0 ∧ ply._ply_pnt_ids[k + 1]? = some id1) ∨
        (ply._ply_pnt_ids[k]? = some id1 ∧ ply._ply_pnt_ids[k + 1]? = some id0) := by
  rw [containsEdge]
  exact containsEdgeAux_iff id0 id1 ply._ply_pnt_ids

/-- Witness for C6: on the index sequence [0, 1, 2], the pair (2, 1) is
an edge in reversed order and the pair (0, 2) is not adjacent. -/
theorem containsEdge_iff_adjacent_witness :
    containsEdge ⟨egPnts, [0, 1, 2]⟩ 2 1 = true ∧
      containsEdge ⟨egPnts, [0, 1, 2]⟩ 0 2 = false := by
  constructor
  · exact (containsEdge_iff_adjacent ⟨egPnts, [0, 1, 2]⟩ 2 1).mpr
      ⟨1, Or.inr ⟨rfl, rfl⟩⟩
  · have h := containsEdge_iff_adjacent ⟨egPnts, [0, 1, 2]⟩ 0 2
    rw [← Bool.not_eq_true, h]
    rintro ⟨k, ⟨hk1, hk2⟩ | ⟨hk1, hk2⟩⟩ <;>
      rcases k with _ | _ | _ | k <;> simp_all

/-- C7: isClosed returns true iff the polyline has more than one point
and its first index equals its last index; in particular it is false
for every single-point polyline. -/
theorem isClosed_spec (pl : Polyline) :
    (pl.isClosed = true ↔
      1 < pl.getNumberOfPoints ∧
        pl._ply_pnt_ids.head? = pl._ply_pnt_ids.getLast?) ∧
    (pl.getNumberOfPoints = 1 → pl.isClosed = false) := by
  have hiff : pl.isClosed = true ↔
      1 < pl.getNumberOfPoints ∧
        pl._ply_pnt_ids.head? = pl._ply_pnt_ids.getLast? := by
    rw [Polyline.isClosed, Bool.and_eq_true, decide_eq_true_eq, beq_iff_eq]
    exact Iff.rfl
  refine ⟨hiff, fun h1 => ?_⟩
  rw [← Bool.not_eq_true, hiff, h1]
  simp

/-- Witness for C7: the triangle loop [0, 1, 2, 0] is closed and the
single-point polyline [0] is not. -/
theorem isClosed_spec_witness :
    ((Polyline.isClosed ⟨egPnts, [0, 1, 2, 0]⟩ = true ↔
      1 < Polyline.getNumberOfPoints ⟨egPnts, [0, 1, 2, 0]⟩ ∧
        ([0, 1, 2, 0] : List ℕ).head? = ([0, 1, 2, 0] : List ℕ).getLast?)) ∧
    (Polyline.getNumberOfPoints ⟨egPnts, [0]⟩ = 1 →
      Polyline.isClosed ⟨egPnts, [0]⟩ = false) :=
  ⟨(isClosed_spec ⟨egPnts, [0, 1, 2, 0]⟩).1, (isClosed_spec ⟨egPnts, [0]⟩).2⟩

/-- C9: the read accessors getPointID, the access operator and getPoint
fail with OutOfRange exactly for positions at or beyond the size, and
getLength fails with OutOfRange exactly when the position exceeds the
cached length sequence; in-range calls succeed (the operations are pure
functions, so nothing is mutated). -/
theorem accessors_range_spec (pl : Polyline) (i k : ℕ) :
    (pl.getNumberOfPoints ≤ i →
      pl.getPointID i = .error .OutOfRange ∧
        pl.getPoint i = .error .OutOfRange ∧
        pl.opIndex i = .error .OutOfRange) ∧
    (i < pl.getNumberOfPoints →
      (∃ id, pl.getPointID i = .ok id) ∧
        (∃ p, pl.getPoint i = .ok p) ∧ ∃ p, pl.opIndex i = .ok p) ∧
    (pl.getLengthVec.length ≤ k → pl.getLength k = .error .OutOfRange) ∧
    (k < pl.getLengthVec.length → ∃ l, pl.getLength k = .ok l) := by
  refine ⟨?_, ?_, ?_, ?_⟩
  · intro h
    have hn : pl._ply_pnt_ids[i]? = none := List.getElem?_eq_none h
    have h1 : pl.getPointID i = .error .OutOfRange := by
      rw [Polyline.getPointID, hn]
    exact ⟨h1, by rw [Polyline.getPoint, h1], by
      rw [Polyline.opIndex, Polyline.getPoint, h1]⟩
  · intro h
    obtain ⟨id0, hs⟩ : ∃ a, pl._ply_pnt_ids[i]? = some a := by
      cases hq : pl._ply_pnt_ids[i]? with
      | none =>
        rw [List.getElem?_eq_none_iff] at hq
        exact absurd h (not_lt.mpr hq)
      | some a => exact ⟨a, rfl⟩
    have h1 : pl.getPointID i = .ok id0 := by
      rw [Polyline.getPointID, hs]
    refine ⟨⟨id0, h1⟩, ⟨pl._ply_pnts.getD id0 default, ?_⟩,
      ⟨pl._ply_pnts.getD id0 default, ?_⟩⟩
    · rw [Polyline.getPoint, h1]
    · rw [Polyline.opIndex, Polyline.getPoint, h1]
  · intro h
    rw [Polyline.getLength, List.getElem?_eq_none h]
  · intro h
    obtain ⟨l0, hs⟩ : ∃ a, pl.getLengthVec[k]? = some a := by
      cases hq : pl.getLengthVec[k]? with
      | none =>
        rw [List.getElem?_eq_none_iff] at hq
        exact absurd h (not_lt.mpr hq)
      | some a => exact ⟨a, rfl⟩
    exact ⟨l0, by rw [Polyline.getLength, hs]⟩

/-- Witness for C9: on the 3-point polyline [0, 1, 2], position 7 is
rejected with OutOfRange for every accessor and position 1 succeeds. -/
theorem accessors_range_spec_witness :
    ((Polyline.getNumberOfPoints ⟨egPnts, [0, 1, 2]⟩ ≤ 7 →
      Polyline.getPointID ⟨egPnts, [0, 1, 2]⟩ 7 = .error .OutOfRange ∧
        Polyline.getPoint ⟨egPnts, [0, 1, 2]⟩ 7 = .error .OutOfRange ∧
        Polyline.opIndex ⟨egPnts, [0, 1, 2]⟩ 7 = .error .OutOfRange)) ∧
    ((1 < Polyline.getNumberOfPoints ⟨egPnts, [0, 1, 2]⟩ →
      (∃ id, Polyline.getPointID ⟨egPnts, [0, 1, 2]⟩ 1 = .ok id) ∧
        (∃ p, Polyline.getPoint ⟨egPnts, [0, 1, 2]⟩ 1 = .ok p) ∧
        ∃ p, Polyline.opIndex ⟨egPnts, [0, 1, 2]⟩ 1 = .ok p)) ∧
    ((Polyline.getLengthVec ⟨egPnts, [0, 1, 2]⟩).length ≤ 7 →
      Polyline.getLength ⟨egPnts, [0, 1, 2]⟩ 7 = .error .OutOfRange) ∧
    (1 < (Polyline.getLengthVec ⟨egPnts, [0, 1, 2]⟩).length →
      ∃ l, Polyline.getLength ⟨egPnts, [0, 1, 2]⟩ 1 = .ok l) :=
  ⟨(accessors_range_spec ⟨egPnts, [0, 1, 2]⟩ 7 7).1,
    (accessors_range_spec ⟨egPnts, [0, 1, 2]⟩ 1 1).2.1,
    (accessors_range_spec ⟨egPnts, [0, 1, 2]⟩ 7 7).2.2.1,
    (accessors_range_spec ⟨egPnts, [0, 1, 2]⟩ 1 1).2.2.2⟩

/-- C10: a call of constructPolylineFromSegments without an explicit
proximity tolerance is the call with tolerance 0, and at tolerance 0
two point indices are identical exactly when they are equal or their
points are at Euclidean distance 0. -/
theorem default_proximity_spec (pnt_vec : List Point) (ply_vec : List (List ℕ))
    (i j : ℕ) :
    constructPolylineFromSegmentsDefault pnt_vec ply_vec =
      constructPolylineFromSegments pnt_vec ply_vec 0 ∧
    (pointsAreIdentical pnt_vec i j 0 = true ↔
      i = j ∨ pointDist (pnt_vec.getD i default) (pnt_vec.getD j default) = 0) := by
  refine ⟨rfl, ?_⟩
  rw [pointsAreIdentical_iff_dist pnt_vec i j le_rfl]
  have hd := pointDist_nonneg (pnt_vec.getD i default) (pnt_vec.getD j default)
  constructor
  · rintro (h | h)
    · exact Or.inl h
    · right
      rw [Rat.cast_zero] at h
      linarith
  · rintro (h | h)
    · exact Or.inl h
    · right
      rw [Rat.cast_zero, h]

/-- Witness for C10: over the example points, index 0 is identical to
itself at tolerance 0 and the defaulted merge call equals the call with
tolerance 0. -/
theorem default_proximity_spec_witness :
    constructPolylineFromSegmentsDefault egPnts [[0, 1]] =
      constructPolylineFromSegments egPnts [[0, 1]] 0 ∧
    (pointsAreIdentical egPnts 0 0 0 = true ↔
      0 = 0 ∨ pointDist (egPnts.getD 0 default) (egPnts.getD 0 default) = 0) :=
  default_proximity_spec egPnts [[0, 1]] 0 0

/-- C8: addPoint with a valid id appends the id to the index sequence
and extends the length sequence by the previous last length plus the
distance from the previous last point to the new point; with an id out
of range of the bound point vector it fails with InvalidIndex (and, the
operation being a pure function, leaves the polyline unchanged). -/
theorem addPoint_spec (pl : Polyline) (id : ℕ) :
    (id < pl._ply_pnts.length →
      ∃ pl', pl.addPoint id = .ok pl' ∧
        pl'._ply_pnt_ids = pl._ply_pnt_ids ++ [id] ∧
        (pl._ply_pnt_ids ≠ [] →
          pl'.getLengthVec = pl.getLengthVec ++
            [pl.getLengthVec.getLastD 0 +
              pointDist (pl.pointSeq.getLastD default)
                (pl._ply_pnts.getD id default)])) ∧
    (pl._ply_pnts.length ≤ id → pl.addPoint id = .error .InvalidIndex) := by
  constructor
  · intro h
    refine ⟨⟨pl._ply_pnts, pl._ply_pnt_ids ++ [id]⟩, ?_, rfl, ?_⟩
    · rw [Polyline.addPoint, if_pos h]
    · intro hne
      obtain ⟨i0, ids0, hids⟩ : ∃ i0 ids0, pl._ply_pnt_ids = i0 :: ids0 := by
        cases hc : pl._ply_pnt_ids with
        | nil => exact absurd hc hne
        | cons a l => exact ⟨a, l, rfl⟩
      have hmap : Polyline.pointSeq ⟨pl._ply_pnts, pl._ply_pnt_ids ++ [id]⟩ =
          pl.pointSeq ++ [pl._ply_pnts.getD id default] := by
        rw [Polyline.pointSeq, Polyline.pointSeq, List.map_append]
        rfl
      have hps : pl.pointSeq = pl._ply_pnts.getD i0 default ::
          ids0.map (fun x => pl._ply_pnts.getD x default) := by
        rw [Polyline.pointSeq, hids]
        rfl
      simp only [Polyline.getLengthVec, hmap, hps, List.cons_append, cumLengths,
        cumLengthsFrom_append, List.getLastD_cons, cumLengthsFrom_getLastD]
  · intro h
    rw [Polyline.addPoint, if_neg (not_lt.mpr h)]

/-- Witness for C8: appending point 2 to the polyline [0, 1] over the
example points succeeds, and appending the out-of-range id 17 fails. -/
theorem addPoint_spec_witness :
    ((2 < egPnts.length →
      ∃ pl', Polyline.addPoint ⟨egPnts, [0, 1]⟩ 2 = .ok pl' ∧
        pl'._ply_pnt_ids = ([0, 1] : List ℕ) ++ [2] ∧
        (([0, 1] : List ℕ) ≠ [] →
          pl'.getLengthVec = (Polyline.getLengthVec ⟨egPnts, [0, 1]⟩) ++
            [(Polyline.getLengthVec ⟨egPnts, [0, 1]⟩).getLastD 0 +
              pointDist ((Polyline.pointSeq ⟨egPnts, [0, 1]⟩).getLastD default)
                (egPnts.getD 2 default)]))) ∧
    (egPnts.length ≤ 17 →
      Polyline.addPoint ⟨egPnts, [0, 1]⟩ 17 = .error .InvalidIndex) :=
  ⟨(addPoint_spec ⟨egPnts, [0, 1]⟩ 2).1, (addPoint_spec ⟨egPnts, [0, 1]⟩ 17).2⟩

/-- In the collinear case the classification kernel is decided by the
projection parameter t of the query point on the directed segment. -/
theorem locate_param (source dest pnt : Point) (t : ℚ)
    (ha : ¬(dest.x - source.x = 0 ∧ dest.y - source.y = 0))
    (hbx : pnt.x - source.x = t * (dest.x - source.x))
    (hby : pnt.y - source.y = t * (dest.y - source.y)) :
    locate source dest pnt =
      if t < 0 then .BEHIND
      else if t = 0 then .SOURCE
      else if t = 1 then .DESTINATION
      else if 1 < t then .BEYOND
      else .BETWEEN := by
  have hA : 0 < (dest.x - source.x) * (dest.x - source.x) +
      (dest.y - source.y) * (dest.y - source.y) := by
    rcases not_and_or.mp ha with h | h
    · have h1 : 0 < (dest.x - source.x) * (dest.x - source.x) := mul_self_pos.mpr h
      nlinarith [mul_self_nonneg (dest.y - source.y)]
    · have h1 : 0 < (dest.y - source.y) * (dest.y - source.y) := mul_self_pos.mpr h
      nlinarith [mul_self_nonneg (dest.x - source.x)]
  have harea : (dest.x - source.x) * (pnt.y - source.y) -
      (dest.y - source.y) * (pnt.x - source.x) = 0 := by
    rw [hbx, hby]
    ring
  have hdot : (dest.x - source.x) * (pnt.x - source.x) +
      (dest.y - source.y) * (pnt.y - source.y) =
      t * ((dest.x - source.x) * (dest.x - source.x) +
        (dest.y - source.y) * (dest.y - source.y)) := by
    rw [hbx, hby]
    ring
  have hbb : (pnt.x - source.x) * (pnt.x - source.x) +
      (pnt.y - source.y) * (pnt.y - source.y) =
      t * t * ((dest.x - source.x) * (dest.x - source.x) +
        (dest.y - source.y) * (dest.y - source.y)) := by
    rw [hbx, hby]
    ring
  unfold locate
  rw [harea, if_neg (lt_irrefl (0 : ℚ)), if_neg (lt_irrefl (0 : ℚ)), hdot, hbb]
  rcases lt_trichotomy t 0 with ht | ht | ht
  · rw [if_pos (by nlinarith), if_pos ht]
  · subst ht
    have hsx : pnt.x = source.x := by
      have h1 := hbx
      rw [zero_mul] at h1
      linarith
    have hsy : pnt.y = source.y := by
      have h1 := hby
      rw [zero_mul] at h1
      linarith
    rw [if_neg (by nlinarith), if_pos ⟨hsx, hsy⟩,
      if_neg (lt_irrefl (0 : ℚ)), if_pos rfl]
  · have hnb : ¬(t * ((dest.x - source.x) * (dest.x - source.x) +
        (dest.y - source.y) * (dest.y - source.y)) < 0) := by nlinarith
    have hns : ¬(pnt.x = source.x ∧ pnt.y = source.y) := by
      rintro ⟨hx, hy⟩
      apply ha
      constructor
      · have h1 : t * (dest.x - source.x) = 0 := by
          rw [← hbx, hx]
          ring
        exact (mul_eq_zero.mp h1).resolve_left (ne_of_gt ht)
      · have h1 : t * (dest.y - source.y) = 0 := by
          rw [← hby, hy]
          ring
        exact (mul_eq_zero.mp h1).resolve_left (ne_of_gt ht)
    have hnd : t ≠ 1 → ¬(pnt.x = dest.x ∧ pnt.y = dest.y) := by
      intro hne
      rintro ⟨hx, hy⟩
      apply ha
      constructor
      · have h2 : t * (dest.x - source.x) = dest.x - source.x := by
          rw [← hbx, hx]
        have h1 : (t - 1) * (dest.x - source.x) = 0 := by
          linear_combination h2
        rcases mul_eq_zero.mp h1 with h | h
        · exact absurd (by linarith : t = 1) hne
        · exact h
      · have h2 : t * (dest.y - source.y) = dest.y - source.y := by
          rw [← hby, hy]
        have h1 : (t - 1) * (dest.y - source.y) = 0 := by
          linear_combination h2
        rcases mul_eq_zero.mp h1 with h | h
        · exact absurd (by linarith : t = 1) hne
        · exact h
    rcases lt_trichotomy t 1 with ht1 | ht1 | ht1
    · rw [if_neg hnb, if_neg hns, if_neg (hnd (ne_of_lt ht1)),
        if_neg (by nlinarith), if_neg (asymm ht), if_neg (ne_of_gt ht),
        if_neg (ne_of_lt ht1), if_neg (asymm ht1)]
    · subst ht1
      have hdx : pnt.x = dest.x := by
        have h1 := hbx
        rw [one_mul] at h1
        linarith
      have hdy : pnt.y = dest.y := by
        have h1 := hby
        rw [one_mul] at h1
        linarith
      rw [if_neg hnb, if_neg hns, if_pos ⟨hdx, hdy⟩,
        if_neg (by norm_num : ¬(1 : ℚ) < 0), if_neg (by norm_num : (1 : ℚ) ≠ 0),
        if_pos rfl]
    · rw [if_neg hnb, if_neg hns, if_neg (hnd (ne_of_gt ht1)),
        if_pos (by nlinarith [sq_nonneg (t - 1)]), if_neg (asymm (by linarith : (0 : ℚ) < t)),
        if_neg (ne_of_gt ht), if_neg (ne_of_gt ht1), if_pos ht1]

/-- C2: getLocationOfPoint classifies a query point against the directed
k-th segment: LEFT when the signed area is positive, RIGHT when it is
negative, and in the collinear case (the point written as source plus t
times the segment direction) BEHIND for t below 0, SOURCE at t equal 0,
DESTINATION at t equal 1, BEYOND for t above 1 and BETWEEN strictly
inside. -/
theorem getLocationOfPoint_spec (pl : Polyline) (k : ℕ) (pnt source dest : Point)
    (hs : pl.pointSeq[k]? = some source)
    (hd : pl.pointSeq[k + 1]? = some dest) :
    (0 < (dest.x - source.x) * (pnt.y - source.y) -
        (dest.y - source.y) * (pnt.x - source.x) →
      pl.getLocationOfPoint k pnt = some .LEFT) ∧
    ((dest.x - source.x) * (pnt.y - source.y) -
        (dest.y - source.y) * (pnt.x - source.x) < 0 →
      pl.getLocationOfPoint k pnt = some .RIGHT) ∧
    (∀ t : ℚ, ¬(dest.x - source.x = 0 ∧ dest.y - source.y = 0) →
      pnt.x - source.x = t * (dest.x - source.x) →
      pnt.y - source.y = t * (dest.y - source.y) →
      pl.getLocationOfPoint k pnt =
        some (if t < 0 then .BEHIND
          else if t = 0 then .SOURCE
          else if t = 1 then .DESTINATION
          else if 1 < t then .BEYOND
          else .BETWEEN)) := by
  have hloc : pl.getLocationOfPoint k pnt = some (locate source dest pnt) := by
    simp only [Polyline.getLocationOfPoint, hs, hd]
  refine ⟨?_, ?_, ?_⟩
  · intro h
    rw [hloc]
    unfold locate
    rw [if_pos h]
  · intro h
    rw [hloc]
    unfold locate
    rw [if_neg (asymm h), if_pos h]
  · intro t ha hbx hby
    rw [hloc, locate_param source dest pnt t ha hbx hby]

/-- Witness for C2: on the segment from egSource to egDest of the
example polyline, the classification theorem holds at the query point
egQuery, which lies to the left. -/
theorem getLocationOfPoint_spec_witness :
    (0 < (egDest.x - egSource.x) * (egQuery.y - egSource.y) -
        (egDest.y - egSource.y) * (egQuery.x - egSource.x) →
      Polyline.getLocationOfPoint ⟨egPnts, [0, 2]⟩ 0 egQuery = some .LEFT) ∧
    ((egDest.x - egSource.x) * (egQuery.y - egSource.y) -
        (egDest.y - egSource.y) * (egQuery.x - egSource.x) < 0 →
      Polyline.getLocationOfPoint ⟨egPnts, [0, 2]⟩ 0 egQuery = some .RIGHT) ∧
    (∀ t : ℚ, ¬(egDest.x - egSource.x = 0 ∧ egDest.y - egSource.y = 0) →
      egQuery.x - egSource.x = t * (egDest.x - egSource.x) →
      egQuery.y - egSource.y = t * (egDest.y - egSource.y) →
      Polyline.getLocationOfPoint ⟨egPnts, [0, 2]⟩ 0 egQuery =
        some (if t < 0 then .BEHIND
          else if t = 0 then .SOURCE
          else if t = 1 then .DESTINATION
          else if 1 < t then .BEYOND
          else .BETWEEN)) :=
  getLocationOfPoint_spec ⟨egPnts, [0, 2]⟩ 0 egQuery egSource egDest rfl rfl

/-- Reduction of the merger on two fragments when the second one
attaches at the tail of the first: the stitched chain is returned. -/
theorem constructPolylineFromSegments_two (pnt_vec : List Point) (prox : ℚ)
    (f0 f1 app : List ℕ) (e0 : ℕ)
    (hopen : chainClosed pnt_vec prox f0 = false)
    (hlast : f0.getLast? = some e0)
    (hat : attachAtTail pnt_vec prox e0 f1 = some app) :
    constructPolylineFromSegments pnt_vec [f0, f1] prox =
      .ok ⟨pnt_vec, f0 ++ app⟩ := by
  have hfind : findAttachAtTail pnt_vec prox e0 [(1, f1)] = some (app, []) := by
    simp [findAttachAtTail, hat]
  have hstep : stitchAux pnt_vec prox (0 + 1) f0 [(1, f1)] = (f0 ++ app, []) := by
    simp only [stitchAux, hopen, Bool.false_eq_true, if_false, hlast, hfind]
  simp only [constructPolylineFromSegments, List.length_cons, List.length_nil,
    List.enumFrom, hstep]

/-- C1: the merger stitches a pair of fragments that share an endpoint
(equal ids, or distinct ids whose points lie within the proximity
tolerance) into the one ordered chain, dropping the duplicated shared
endpoint and reversing the second fragment when it attaches by its far
end. -/
theorem constructPolylineFromSegments_stitches_pair
    (pnt_vec : List Point) (prox : ℚ) (f0 t1 : List ℕ) (e0 h1 l1 : ℕ)
    (hprox : 0 ≤ prox)
    (hlast : f0.getLast? = some e0)
    (hl1 : (h1 :: t1).getLast? = some l1)
    (hopen : chainClosed pnt_vec prox f0 = false) :
    ((e0 = h1 ∨
        pointDist (pnt_vec.getD e0 default) (pnt_vec.getD h1 default) ≤ (prox : ℝ)) →
      constructPolylineFromSegments pnt_vec [f0, h1 :: t1] prox =
        .ok ⟨pnt_vec, f0 ++ t1⟩) ∧
    (¬(e0 = h1 ∨
        pointDist (pnt_vec.getD e0 default) (pnt_vec.getD h1 default) ≤ (prox : ℝ)) →
      (e0 = l1 ∨
        pointDist (pnt_vec.getD e0 default) (pnt_vec.getD l1 default) ≤ (prox : ℝ)) →
      constructPolylineFromSegments pnt_vec [f0, h1 :: t1] prox =
        .ok ⟨pnt_vec, f0 ++ (h1 :: t1).reverse.tail⟩) := by
  constructor
  · intro hm
    have hid : pointsAreIdentical pnt_vec e0 h1 prox = true :=
      (pointsAreIdentical_iff_dist pnt_vec e0 h1 hprox).mpr hm
    have hat : attachAtTail pnt_vec prox e0 (h1 :: t1) = some t1 := by
      simp only [attachAtTail, List.head?_cons, hl1, hid, if_true, List.tail_cons]
    exact constructPolylineFromSegments_two pnt_vec prox f0 (h1 :: t1) t1 e0
      hopen hlast hat
  · intro hm1 hm2
    have hid1 : pointsAreIdentical pnt_vec e0 h1 prox = false := by
      rw [Bool.eq_false_iff]
      intro hb
      exact hm1 ((pointsAreIdentical_iff_dist pnt_vec e0 h1 hprox).mp hb)
    have hid2 : pointsAreIdentical pnt_vec e0 l1 prox = true :=
      (pointsAreIdentical_iff_dist pnt_vec e0 l1 hprox).mpr hm2
    have hat : attachAtTail pnt_vec prox e0 (h1 :: t1) =
        some (h1 :: t1).reverse.tail := by
      simp only [attachAtTail, List.head?_cons, hl1, hid1, hid2,
        Bool.false_eq_true, if_false, if_true]
    exact constructPolylineFromSegments_two pnt_vec prox f0 (h1 :: t1)
      (h1 :: t1).reverse.tail e0 hopen hlast hat

/-- Witness for C1: the fragments [P0, P1, P2] and [P2, P3] of the
example points, sharing P2 by equal id, merge at tolerance 0 into the
single polyline [P0, P1, P2, P3]. -/
theorem constructPolylineFromSegments_stitches_pair_witness :
    ((2 = 2 ∨
        pointDist (egPnts.getD 2 default) (egPnts.getD 2 default) ≤ ((0 : ℚ) : ℝ)) →
      constructPolylineFromSegments egPnts [[0, 1, 2], 2 :: [3]] 0 =
        .ok ⟨egPnts, [0, 1, 2] ++ [3]⟩) ∧
    (¬(2 = 2 ∨
        pointDist (egPnts.getD 2 default) (egPnts.getD 2 default) ≤ ((0 : ℚ) : ℝ)) →
      (2 = 3 ∨
        pointDist (egPnts.getD 2 default) (egPnts.getD 3 default) ≤ ((0 : ℚ) : ℝ)) →
      constructPolylineFromSegments egPnts [[0, 1, 2], 2 :: [3]] 0 =
        .ok ⟨egPnts, [0, 1, 2] ++ (2 :: [3]).reverse.tail⟩) :=
  constructPolylineFromSegments_stitches_pair egPnts 0 [0, 1, 2] [3] 2 2 3
    le_rfl rfl rfl
    (by
      simp only [chainClosed, List.getLastD, pointsAreIdentical, egPnts, sqrDist]
      norm_num)

/-- C5: the merger fails with EmptyInput on zero fragments, and fails
with DisconnectedFragments, reporting the leftover fragment, when a
second fragment reaches neither endpoint of the chain (no equal ids and
no points within the tolerance). -/
theorem constructPolylineFromSegments_failure_spec
    (pnt_vec : List Point) (prox : ℚ) (a0 : ℕ) (f0tail t1 : List ℕ)
    (e0 h1 l1 : ℕ)
    (hprox : 0 ≤ prox)
    (hlast : (a0 :: f0tail).getLast? = some e0)
    (hl1 : (h1 :: t1).getLast? = some l1)
    (hopen : chainClosed pnt_vec prox (a0 :: f0tail) = false)
    (hm1 : ¬(e0 = h1 ∨
      pointDist (pnt_vec.getD e0 default) (pnt_vec.getD h1 default) ≤ (prox : ℝ)))
    (hm2 : ¬(e0 = l1 ∨
      pointDist (pnt_vec.getD e0 default) (pnt_vec.getD l1 default) ≤ (prox : ℝ)))
    (hm3 : ¬(a0 = l1 ∨
      pointDist (pnt_vec.getD a0 default) (pnt_vec.getD l1 default) ≤ (prox : ℝ)))
    (hm4 : ¬(a0 = h1 ∨
      pointDist (pnt_vec.getD a0 default) (pnt_vec.getD h1 default) ≤ (prox : ℝ))) :
    constructPolylineFromSegments pnt_vec [] prox = .error .EmptyInput ∧
    constructPolylineFromSegments pnt_vec [a0 :: f0tail, h1 :: t1] prox =
      .error (.DisconnectedFragments [1]) := by
  refine ⟨rfl, ?_⟩
  have hfalse : ∀ x y : ℕ,
      ¬(x = y ∨ pointDist (pnt_vec.getD x default) (pnt_vec.getD y default) ≤ (prox : ℝ)) →
      pointsAreIdentical pnt_vec x y prox = false := by
    intro x y hxy
    rw [Bool.eq_false_iff]
    intro hb
    exact hxy ((pointsAreIdentical_iff_dist pnt_vec x y hprox).mp hb)
  have hat : attachAtTail pnt_vec prox e0 (h1 :: t1) = none := by
    simp only [attachAtTail, List.head?_cons, hl1, hfalse e0 h1 hm1,
      hfalse e0 l1 hm2, Bool.false_eq_true, if_false]
  have hah : attachAtHead pnt_vec prox a0 (h1 :: t1) = none := by
    simp only [attachAtHead, List.head?_cons, hl1, hfalse a0 l1 hm3,
      hfalse a0 h1 hm4, Bool.false_eq_true, if_false]
  have hfindT : findAttachAtTail pnt_vec prox e0 [(1, h1 :: t1)] = none := by
    simp [findAttachAtTail, hat]
  have hfindH : findAttachAtHead pnt_vec prox a0 [(1, h1 :: t1)] = none := by
    simp [findAttachAtHead, hah]
  have hstep : stitchAux pnt_vec prox (0 + 1) (a0 :: f0tail) [(1, h1 :: t1)] =
      (a0 :: f0tail, [(1, h1 :: t1)]) := by
    simp only [stitchAux, hopen, Bool.false_eq_true, if_false, hlast, hfindT,
      List.head?_cons, hfindH]
  simp only [constructPolylineFromSegments, List.length_cons, List.length_nil,
    List.enumFrom, hstep, List.map_cons, List.map_nil]

/-- Witness for C5: the merger rejects the empty fragment vector with
EmptyInput, and the fragments [P0, P1, P2] and [P4, P5] of the example
points, with no coincident or near endpoints at tolerance 0, fail with
DisconnectedFragments reporting fragment 1. -/
theorem constructPolylineFromSegments_failure_spec_witness :
    constructPolylineFromSegments egPnts [] 0 = .error .EmptyInput ∧
    constructPolylineFromSegments egPnts [0 :: [1, 2], 4 :: [5]] 0 =
      .error (.DisconnectedFragments [1]) := by
  refine constructPolylineFromSegments_failure_spec egPnts 0 0 [1, 2] [5] 2 4 5
    le_rfl rfl rfl ?_ ?_ ?_ ?_ ?_
  · simp only [chainClosed, List.getLastD, pointsAreIdentical, egPnts, sqrDist]
    norm_num
  · rintro (h | h)
    · exact absurd h (by decide)
    · rw [pointDist_le_iff le_rfl] at h
      norm_num [sqrDist, egPnts] at h
  · rintro (h | h)
    · exact absurd h (by decide)
    · rw [pointDist_le_iff le_rfl] at h
      norm_num [sqrDist, egPnts] at h
  · rintro (h | h)
    · exact absurd h (by decide)
    · rw [pointDist_le_iff le_rfl] at h
      norm_num [sqrDist, egPnts] at h
  · rintro (h | h)
    · exact absurd h (by decide)
    · rw [pointDist_le_iff le_rfl] at h
      norm_num [sqrDist, egPnts] at h

end GEOLIB
